import Mathlib

/-!
Shallow embedding of the WebRunnr core facade (packages/core/src/index.ts).

The facade keeps four JavaScript `Map`s keyed by lower-cased language
identifiers (workers, workerPaths, workerReady, inputHandlers), drives an
event loop over messages received from an opaque per-language worker, and
wraps everything in a try/catch that converts rejections of the inner
worker-execution promise into a resolved failed `ExecutionResult`.

Workers are opaque message-passing peers, so a worker run is embedded as a
timed trace of the messages (and transport faults) the worker emits; the
Lean functions below replay the TypeScript handlers over such a trace.
Worker handles are natural-number ids handed out by a counter, and calls to
`worker.terminate()` are recorded in a list so that resource release is
observable.
-/

deriving instance DecidableEq for Except

namespace WebRunnr

/-- A JavaScript `Map` with string keys: an insertion-ordered association
list.  `Map.set` updates in place when the key exists, otherwise appends. -/
abbrev JsMap (α : Type) := List (String × α)

/-- `Map.get` — the value stored at the key, if any. -/
def mget {α : Type} (m : JsMap α) (k : String) : Option α :=
  (m.find? (fun p => p.1 == k)).map (fun p => p.2)

/-- `Map.set` — overwrite in place, or append a new entry. -/
def mset {α : Type} (m : JsMap α) (k : String) (v : α) : JsMap α :=
  if m.any (fun p => p.1 == k) then
    m.map (fun p => if p.1 == k then (k, v) else p)
  else m ++ [(k, v)]

/-- `Map.has`. -/
def mhas {α : Type} (m : JsMap α) (k : String) : Bool :=
  (mget m k).isSome

/-- `Map.keys` in insertion order. -/
def mkeys {α : Type} (m : JsMap α) : List String :=
  m.map (fun p => p.1)

/-- `Map.delete`. -/
def mdelete {α : Type} (m : JsMap α) (k : String) : JsMap α :=
  m.filter (fun p => !(p.1 == k))

/-- `language.toLowerCase()`: lower-case each character (structurally over
the underlying character list, so concrete instances evaluate). -/
def lowerCase (s : String) : String :=
  ⟨s.data.map Char.toLower⟩

/-- The `ExecutionEvent` wire contract: messages a worker posts. -/
inductive WMsg where
  | ready : WMsg
  | stdout (data : String) : WMsg
  | stderr (data : String) : WMsg
  | inputRequest (prompt : String) : WMsg
  | done : WMsg
  | error (data : String) : WMsg
deriving DecidableEq, Repr

/-- One observable occurrence on a worker's channel: a posted protocol
message, or a transport-level fault (the `worker.onerror` path). -/
inductive TraceEv where
  | msg (m : WMsg) : TraceEv
  | fault (message : String) : TraceEv
deriving DecidableEq, Repr

/-- A worker run: the messages/faults it emits, each with the time (ms after
submission) at which it is delivered. -/
abbrev WTrace := List (Nat × TraceEv)

/-- Messages the core posts to a worker: the initial `{ code }` submission
and `{ type: 'input_response', value }` answers. -/
inductive PostMsg where
  | codeMsg (code : String) : PostMsg
  | inputResponse (value : String) : PostMsg
deriving DecidableEq, Repr

/-- An input handler: prompt text to an answer, or a failure (a rejected
promise / thrown error in the source). -/
abbrev InputHandler := String → Except String String

/-- `defaultInputHandler`: uses `window.prompt` when a window is available
(`null` answers become the empty string), otherwise throws. -/
def defaultInputHandler (window : Option (String → Option String)) : InputHandler :=
  fun p =>
    match window with
    | some promptFn => .ok ((promptFn p).getD "")
    | none => .error "No input handler available"

/-- Settlement of the inner `executeOnWorker` promise. -/
inductive ExOut where
  | resolved (stdout stderr : String) (success : Bool) : ExOut
  | rejected (message : String) : ExOut
  | pending : ExOut
deriving DecidableEq, Repr

/-- A promise settles only once: keep the first settlement. -/
def firstSettle (s : Option ExOut) (o : ExOut) : Option ExOut :=
  match s with
  | some x => some x
  | none => some o

/-- Mutable state of one `executeOnWorker` call: the accumulators and flags
closed over by its message handler, what was forwarded to the caller's
event handler, what was posted to the worker, whether the promise has
settled, whether the message listener is still attached, and whether the
execution timeout timer is still pending. -/
structure RunSt where
  out : String
  err : String
  success : Bool
  events : List WMsg
  posted : List PostMsg
  settled : Option ExOut
  listener : Bool
  timerActive : Bool
deriving DecidableEq, Repr

/-- The execution timeout timer fires as soon as time reaches the bound
while the timer is still pending and the promise rejects with
`Execution timeout`; the message listener is not removed on this path. -/
def timerCheck (timer : Option Nat) (t : Nat) (s : RunSt) : RunSt :=
  if s.timerActive then
    match timer with
    | some tT =>
      if tT ≤ t then
        { s with settled := firstSettle s.settled (.rejected "Execution timeout"),
                 timerActive := false }
      else s
    | none => s
  else s

/-- The input-request branch of `executeOnWorker`'s message handler: the
handler stored under the literal key `"python"` (as in the source), or the
default handler, is invoked; a failure is caught and answered with the
empty string. -/
def inputAnswer (handlers : JsMap InputHandler) (window : Option (String → Option String))
    (p : String) : String :=
  match ((mget handlers "python").getD (defaultInputHandler window)) p with
  | .ok a => a
  | .error _ => ""

/-- The `messageHandler` of `executeOnWorker`: forward the event, then
switch on its type.  The input-request branch looks the handler up under
the literal key `"python"` (as the source does), falling back to the
default handler; a handler failure posts an empty-string answer. -/
def handleMsg (handlers : JsMap InputHandler) (window : Option (String → Option String))
    (s : RunSt) (m : WMsg) : RunSt :=
  if s.listener then
    let s1 := { s with events := s.events ++ [m] }
    match m with
    | .ready => s1
    | .stdout d => { s1 with out := s1.out ++ d }
    | .stderr d => { s1 with err := s1.err ++ d }
    | .done =>
        { s1 with success := true, listener := false, timerActive := false,
                  settled := firstSettle s1.settled (.resolved s1.out s1.err true) }
    | .error d =>
        { s1 with err := s1.err ++ d, listener := false, timerActive := false,
                  settled := firstSettle s1.settled (.resolved s1.out (s1.err ++ d) false) }
    | .inputRequest p =>
        { s1 with posted := s1.posted ++ [.inputResponse (inputAnswer handlers window p)] }
  else s

/-- One delivery step of `executeOnWorker`: a due timer fires first, then a
transport fault runs `onerror` (cleanup plus rejection), and a protocol
message runs the message handler when the listener is attached. -/
def execStep (handlers : JsMap InputHandler) (window : Option (String → Option String))
    (timer : Option Nat) (s : RunSt) (e : Nat × TraceEv) : RunSt :=
  let s := timerCheck timer e.1 s
  match e.2 with
  | .fault m =>
      { s with listener := false, timerActive := false,
               settled := firstSettle s.settled
                 (.rejected ( "Worker error during execution: " ++ m)) }
  | .msg m => handleMsg handlers window s m

/-- Result of replaying `executeOnWorker` over a worker trace. -/
structure ExecRun where
  fin : RunSt
  outcome : ExOut

/-- `timeout ? setTimeout(...) : null` — a falsy timeout (absent or `0`)
installs no timer. -/
def execTimer (timeout : Option Nat) : Option Nat :=
  match timeout with
  | some 0 => none
  | x => x

/-- `executeOnWorker`: post the code, then process the worker's trace.  A
falsy timeout (absent or `0`) installs no timer, so with no timer and no
terminal event the promise stays pending; with a timer and no settlement
during the trace, the timer fires afterwards and the promise rejects. -/
def runExec (handlers : JsMap InputHandler) (window : Option (String → Option String))
    (code : String) (timeout : Option Nat) (trace : WTrace) : ExecRun :=
  let timer : Option Nat := execTimer timeout
  let s0 : RunSt :=
    { out := "", err := "", success := false, events := [], posted := [.codeMsg code],
      settled := none, listener := true, timerActive := timer.isSome }
  let s := trace.foldl (execStep handlers window timer) s0
  { fin := s,
    outcome :=
      match s.settled with
      | some o => o
      | none => if timer.isSome then .rejected "Execution timeout" else .pending }

/-- State closed over by one `waitForWorkerReady` call: whether its promise
settled (and how), whether its message listener is still attached, whether
the 30000 ms initialization timer is still pending, and whether it has set
the session's ready flag. -/
structure HsSt where
  settled : Option (Except String Unit)
  listener : Bool
  timerActive : Bool
  readySet : Bool
deriving DecidableEq, Repr

/-- First settlement wins for the handshake promise. -/
def firstHs (s : Option (Except String Unit)) (o : Except String Unit) :
    Option (Except String Unit) :=
  match s with
  | some x => some x
  | none => some o

/-- The rejection message of the initialization timer. -/
def initTimeoutMsg (language : String) : String :=
  "Worker for " ++ language ++ " failed to initialize within timeout"

/-- One delivery step of `waitForWorkerReady`: a due initialization timer
rejects first, without removing the message listener; then a `ready` or
`error` message (while the listener is attached) clears the timer, removes
the listener, and settles — a `ready` also sets the ready flag, even when
the promise already settled by timeout; other messages are ignored; a
transport fault runs `onerror`, which cleans up and rejects. -/
def hsStep (language : String) (s : HsSt) (e : Nat × TraceEv) : HsSt :=
  let s :=
    if s.timerActive then
      if 30000 ≤ e.1 then
        { s with settled := firstHs s.settled (.error (initTimeoutMsg language)),
                 timerActive := false }
      else s
    else s
  match e.2 with
  | .fault m =>
      { s with listener := false, timerActive := false,
               settled := firstHs s.settled (.error ( "Worker error: " ++ m)) }
  | .msg .ready =>
      if s.listener then
        { s with listener := false, timerActive := false, readySet := true,
                 settled := firstHs s.settled (.ok ()) }
      else s
  | .msg (.error d) =>
      if s.listener then
        { s with listener := false, timerActive := false,
                 settled := firstHs s.settled
                   (.error ( "Worker initialization failed: " ++ d)) }
      else s
  | .msg _ => s

/-- Replay `waitForWorkerReady` over the messages the fresh worker emits. -/
def runHandshake (language : String) (trace : WTrace) : HsSt :=
  trace.foldl (hsStep language)
    { settled := none, listener := true, timerActive := true, readySet := false }

/-- The handshake promise's settlement: the recorded one, or the timer
firing after the trace ends. -/
def hsOutcome (language : String) (s : HsSt) : Except String Unit :=
  match s.settled with
  | some o => o
  | none => .error (initTimeoutMsg language)

/-- The facade's mutable fields (the four maps), the worker-id counter, and
the log of `worker.terminate()` calls. -/
structure RegistryState where
  workers : JsMap Nat
  workerPaths : JsMap String
  workerReady : JsMap Bool
  inputHandlers : JsMap InputHandler
  nextId : Nat
  terminatedIds : List Nat

/-- `setupDefaultExecutors`: the five built-in entry-point registrations. -/
def setupDefaultExecutors (paths : JsMap String) : JsMap String :=
  mset (mset (mset (mset (mset paths
    "python" "./packages/py-executor/dist/index.js")
    "javascript" "./packages/js-executor/dist/index.js")
    "typescript" "./packages/ts-executor/dist/index.js")
    "cpp" "./packages/cpp-executor/dist/index.js")
    "java" "./packages/java-executor/dist/index.js"

/-- The state of a freshly constructed `WebRunnrCore`. -/
def initialState : RegistryState :=
  { workers := [], workerPaths := setupDefaultExecutors [], workerReady := [],
    inputHandlers := [], nextId := 0, terminatedIds := [] }

/-- `registerExecutor`. -/
def registerExecutor (st : RegistryState) (language workerPath : String) : RegistryState :=
  { st with workerPaths := mset st.workerPaths (lowerCase language) workerPath }

/-- `setInputHandler`. -/
def setInputHandler (st : RegistryState) (language : String) (h : InputHandler) :
    RegistryState :=
  { st with inputHandlers := mset st.inputHandlers (lowerCase language) h }

/-- The construction half of `getOrCreateWorker`: path lookup, worker
construction (fresh id, registered not-ready), then the handshake; the
handshake's effect on the ready flag is applied, and its rejection is
propagated. -/
def mkWorker (st : RegistryState) (language : String) (hs : WTrace) :
    Except String Nat × RegistryState :=
  match mget st.workerPaths language with
  | none => (.error ( "No executor found for language: " ++ language), st)
  | some _ =>
    let w := st.nextId
    let st1 := { st with workers := mset st.workers language w,
                         workerReady := mset st.workerReady language false,
                         nextId := st.nextId + 1 }
    let h := runHandshake language hs
    let st2 :=
      if h.readySet then { st1 with workerReady := mset st1.workerReady language true }
      else st1
    match hsOutcome language h with
    | .ok _ => (.ok w, st2)
    | .error m => (.error m, st2)

/-- `getOrCreateWorker`: reuse a ready session; terminate a session that
exists but is not ready, then construct anew.  `hs` is the trace the fresh
worker would emit during the handshake. -/
def getOrCreateWorker (st : RegistryState) (language : String) (hs : WTrace) :
    Except String Nat × RegistryState :=
  match mget st.workers language with
  | some w =>
    if (mget st.workerReady language).getD false then (.ok w, st)
    else mkWorker { st with terminatedIds := st.terminatedIds ++ [w] } language hs
  | none => mkWorker st language hs

/-- `isLanguageSupported`. -/
def isLanguageSupported (st : RegistryState) (language : String) : Bool :=
  mhas st.workerPaths (lowerCase language)

/-- `getSupportedLanguages`. -/
def getSupportedLanguages (st : RegistryState) : List String :=
  mkeys st.workerPaths

/-- `terminate`: release every live worker, clear workers, ready flags and
input handlers; entry-point registrations stay. -/
def terminate (st : RegistryState) : RegistryState :=
  { st with terminatedIds := st.terminatedIds ++ st.workers.map (fun p => p.2),
            workers := [], workerReady := [], inputHandlers := [] }

/-- `terminateLanguageWorker`. -/
def terminateLanguageWorker (st : RegistryState) (language : String) : RegistryState :=
  match mget st.workers (lowerCase language) with
  | some w =>
    { st with terminatedIds := st.terminatedIds ++ [w],
              workers := mdelete st.workers (lowerCase language),
              workerReady := mdelete st.workerReady (lowerCase language) }
  | none => st

/-- `ExecutionRequest`. -/
structure ExecutionRequest where
  code : String
  language : String
  timeout : Option Nat

/-- `ExecutorOptions`. -/
structure ExecOptions where
  timeout : Option Nat
  inputHandler : Option InputHandler

/-- `ExecutionResult`. -/
structure ExecutionResult where
  stdout : String
  stderr : String
  success : Bool
  executionTime : Option Nat
deriving DecidableEq, Repr

/-- How an `executeWithEvents` call ends: with a resolved `ExecutionResult`
(the function's try/catch converts every internal rejection into one), or
never (the inner promise stays pending). -/
inductive WEOut where
  | result (r : ExecutionResult) : WEOut
  | pending : WEOut
deriving DecidableEq, Repr

/-- The environment one `executeWithEvents` call runs against: the trace a
fresh worker would emit during the handshake, the trace the worker emits
for the submitted code, the ambient `window`, and the wall-clock duration
measured by the `Date.now()` pair. -/
structure WEnv where
  hsTrace : WTrace
  execTrace : WTrace
  window : Option (String → Option String)
  elapsed : Nat

/-- `if (options.inputHandler) { this.inputHandlers.set(language, options.inputHandler) }`. -/
def installOpt (st : RegistryState) (language : String) (h : Option InputHandler) :
    RegistryState :=
  match h with
  | some f => { st with inputHandlers := mset st.inputHandlers language f }
  | none => st

/-- Everything observable about one `executeWithEvents` call: its outcome,
the events delivered to the caller's handler, the messages posted to the
worker, and the facade state afterwards. -/
structure WEResult where
  outcome : WEOut
  events : List WMsg
  posted : List PostMsg
  state : RegistryState

/-- `executeWithEvents`: lower-case the language, obtain a worker (a
failure is caught: `Execution failed: ` plus the message goes to stderr,
an `error` event to the handler, success is false), install
`options.inputHandler` when present, then run the code with
`options.timeout` (the request's own timeout field is not consulted) and
either copy the resolved triple or catch the rejection the same way. -/
def executeWithEvents (st : RegistryState) (req : ExecutionRequest)
    (opts : ExecOptions) (env : WEnv) : WEResult :=
  let language := lowerCase req.language
  match getOrCreateWorker st language env.hsTrace with
  | (.error m, st1) =>
      { outcome := .result { stdout := "", stderr := "Execution failed: " ++ m,
                             success := false, executionTime := some env.elapsed },
        events := [.error m], posted := [], state := st1 }
  | (.ok _, st1) =>
      let st2 := installOpt st1 language opts.inputHandler
      let r := runExec st2.inputHandlers env.window req.code opts.timeout env.execTrace
      match r.outcome with
      | .resolved o e ok =>
          { outcome := .result { stdout := o, stderr := e, success := ok,
                                 executionTime := some env.elapsed },
            events := r.fin.events, posted := r.fin.posted, state := st2 }
      | .rejected m =>
          { outcome := .result { stdout := "", stderr := "Execution failed: " ++ m,
                                 success := false, executionTime := some env.elapsed },
            events := r.fin.events ++ [.error m], posted := r.fin.posted, state := st2 }
      | .pending =>
          { outcome := .pending, events := r.fin.events, posted := r.fin.posted,
            state := st2 }

/-- Events that neither settle the inner execution promise nor detach its
message listener: everything except `done`, `error` and transport faults. -/
def quietEv : TraceEv → Bool
  | .msg (.stdout _) => true
  | .msg (.stderr _) => true
  | .msg (.inputRequest _) => true
  | .msg .ready => true
  | .msg .done => false
  | .msg (.error _) => false
  | .fault _ => false

/-- Concatenation of the stdout payloads of a trace, in emission order. -/
def outAcc : WTrace → String
  | [] => ""
  | (_, .msg (.stdout d)) :: rest => d ++ outAcc rest
  | (_, .msg (.stderr _)) :: rest => outAcc rest
  | (_, .msg (.inputRequest _)) :: rest => outAcc rest
  | (_, .msg .ready) :: rest => outAcc rest
  | (_, .msg .done) :: rest => outAcc rest
  | (_, .msg (.error _)) :: rest => outAcc rest
  | (_, .fault _) :: rest => outAcc rest

/-- Concatenation of the stderr payloads of a trace, in emission order. -/
def errAcc : WTrace → String
  | [] => ""
  | (_, .msg (.stderr d)) :: rest => d ++ errAcc rest
  | (_, .msg (.stdout _)) :: rest => errAcc rest
  | (_, .msg (.inputRequest _)) :: rest => errAcc rest
  | (_, .msg .ready) :: rest => errAcc rest
  | (_, .msg .done) :: rest => errAcc rest
  | (_, .msg (.error _)) :: rest => errAcc rest
  | (_, .fault _) :: rest => errAcc rest

/-- A facade state whose python session is already constructed and ready:
used to exercise the execution paths without re-running a handshake. -/
def readySt : RegistryState :=
  { workers := [( "python", 0)], workerPaths := setupDefaultExecutors [],
    workerReady := [( "python", true)], inputHandlers := [], nextId := 1,
    terminatedIds := [] }

theorem timerCheck_inactive (timer : Option Nat) (t : Nat) (s : RunSt)
    (h : s.timerActive = false) : timerCheck timer t s = s := by
  simp [timerCheck, h]

theorem timerCheck_quiet (timer : Option Nat) (t : Nat) (s : RunSt)
    (h : ∀ tT, timer = some tT → t < tT) : timerCheck timer t s = s := by
  cases timer with
  | none => simp [timerCheck]
  | some tT =>
    have ht : ¬ (tT ≤ t) := Nat.not_le.mpr (h tT rfl)
    simp [timerCheck, ht]

theorem foldl_settled (handlers : JsMap InputHandler)
    (window : Option (String → Option String)) (timer : Option Nat) (l : WTrace) :
    ∀ s : RunSt, s.listener = false → s.timerActive = false → s.settled.isSome →
      (l.foldl (execStep handlers window timer) s).settled = s.settled ∧
      (l.foldl (execStep handlers window timer) s).listener = false ∧
      (l.foldl (execStep handlers window timer) s).timerActive = false := by
  induction l with
  | nil => intro s h1 h2 _; exact ⟨rfl, h1, h2⟩
  | cons e rest ih =>
    intro s h1 h2 h3
    rw [List.foldl_cons]
    have htc : timerCheck timer e.1 s = s := timerCheck_inactive timer e.1 s h2
    cases he : e.2 with
    | msg m =>
      have hstep : execStep handlers window timer s e = s := by
        simp [execStep, htc, he, handleMsg, h1]
      rw [hstep]
      exact ih s h1 h2 h3
    | fault m =>
      obtain ⟨o, ho⟩ := Option.isSome_iff_exists.mp h3
      have hstep : execStep handlers window timer s e =
          { s with listener := false, timerActive := false, settled := s.settled } := by
        simp [execStep, htc, he, firstSettle, ho]
      rw [hstep]
      have := ih { s with listener := false, timerActive := false, settled := s.settled }
        rfl rfl h3
      exact this

theorem outAcc_cons (e : Nat × TraceEv) (rest : WTrace) :
    outAcc (e :: rest) = outAcc [e] ++ outAcc rest := by
  obtain ⟨t, ev⟩ := e
  cases ev with
  | fault m => simp [outAcc]
  | msg m => cases m <;> simp [outAcc]

theorem errAcc_cons (e : Nat × TraceEv) (rest : WTrace) :
    errAcc (e :: rest) = errAcc [e] ++ errAcc rest := by
  obtain ⟨t, ev⟩ := e
  cases ev with
  | fault m => simp [errAcc]
  | msg m => cases m <;> simp [errAcc]

theorem execStep_quiet (handlers : JsMap InputHandler)
    (window : Option (String → Option String)) (timer : Option Nat)
    (s : RunSt) (t : Nat) (m : WMsg)
    (hm : quietEv (.msg m) = true) (h1 : s.settled = none) (h2 : s.listener = true)
    (ht : ∀ tT, timer = some tT → t < tT) :
    (execStep handlers window timer s (t, .msg m)).settled = none ∧
    (execStep handlers window timer s (t, .msg m)).listener = true ∧
    (execStep handlers window timer s (t, .msg m)).timerActive = s.timerActive ∧
    (execStep handlers window timer s (t, .msg m)).out = s.out ++ outAcc [(t, .msg m)] ∧
    (execStep handlers window timer s (t, .msg m)).err = s.err ++ errAcc [(t, .msg m)] ∧
    (execStep handlers window timer s (t, .msg m)).success = s.success := by
  have htc : timerCheck timer t s = s := timerCheck_quiet timer t s ht
  cases m with
  | ready => simp [execStep, htc, handleMsg, h2, h1, outAcc, errAcc]
  | stdout d => simp [execStep, htc, handleMsg, h2, h1, outAcc, errAcc]
  | stderr d => simp [execStep, htc, handleMsg, h2, h1, outAcc, errAcc]
  | inputRequest p => simp [execStep, htc, handleMsg, h2, h1, outAcc, errAcc]
  | done => simp [quietEv] at hm
  | error d => simp [quietEv] at hm

theorem foldl_quiet (handlers : JsMap InputHandler)
    (window : Option (String → Option String)) (timer : Option Nat) :
    ∀ (pre : WTrace) (s : RunSt), s.settled = none → s.listener = true →
      (∀ e ∈ pre, quietEv e.2 = true ∧ ∀ tT, timer = some tT → e.1 < tT) →
      ((pre.foldl (execStep handlers window timer) s).settled = none ∧
       (pre.foldl (execStep handlers window timer) s).listener = true ∧
       (pre.foldl (execStep handlers window timer) s).timerActive = s.timerActive) ∧
      ((pre.foldl (execStep handlers window timer) s).out = s.out ++ outAcc pre ∧
       (pre.foldl (execStep handlers window timer) s).err = s.err ++ errAcc pre ∧
       (pre.foldl (execStep handlers window timer) s).success = s.success) := by
  intro pre
  induction pre with
  | nil =>
    intro s h1 h2 _
    simp [h1, h2, outAcc, errAcc]
  | cons e rest ih =>
    intro s h1 h2 hq
    obtain ⟨t, ev⟩ := e
    obtain ⟨hqe, hte⟩ := hq (t, ev) (List.mem_cons_self _ _)
    have hqrest : ∀ x ∈ rest, quietEv x.2 = true ∧ ∀ tT, timer = some tT → x.1 < tT :=
      fun x hx => hq x (List.mem_cons_of_mem _ hx)
    cases ev with
    | fault m => simp [quietEv] at hqe
    | msg m =>
      have hstep := execStep_quiet handlers window timer s t m hqe h1 h2 hte
      rw [List.foldl_cons]
      have hrec := ih (execStep handlers window timer s (t, .msg m))
        hstep.1 hstep.2.1 hqrest
      refine ⟨⟨hrec.1.1, hrec.1.2.1, ?_⟩, ?_, ?_, ?_⟩
      · rw [hrec.1.2.2, hstep.2.2.1]
      · rw [hrec.2.1, hstep.2.2.2.1, String.append_assoc, ← outAcc_cons]
      · rw [hrec.2.2.1, hstep.2.2.2.2.1, String.append_assoc, ← errAcc_cons]
      · rw [hrec.2.2.2, hstep.2.2.2.2.2]

theorem foldl_done (handlers : JsMap InputHandler)
    (window : Option (String → Option String)) (timer : Option Nat)
    (pre rest : WTrace) (t : Nat) (s : RunSt)
    (h1 : s.settled = none) (h2 : s.listener = true)
    (hq : ∀ e ∈ pre, quietEv e.2 = true ∧ ∀ tT, timer = some tT → e.1 < tT)
    (ht : ∀ tT, timer = some tT → t < tT) :
    ((pre ++ (t, .msg .done) :: rest).foldl (execStep handlers window timer) s).settled =
      some (.resolved (s.out ++ outAcc pre) (s.err ++ errAcc pre) true) := by
  rw [List.foldl_append, List.foldl_cons]
  obtain ⟨⟨hs1, hl1, _⟩, ho1, he1, _⟩ := foldl_quiet handlers window timer pre s h1 h2 hq
  set s1 := pre.foldl (execStep handlers window timer) s with hs1def
  have htc : timerCheck timer t s1 = s1 := timerCheck_quiet timer t s1 ht
  have hstep : (execStep handlers window timer s1 (t, .msg .done)).settled
        = some (.resolved s1.out s1.err true) ∧
      (execStep handlers window timer s1 (t, .msg .done)).listener = false ∧
      (execStep handlers window timer s1 (t, .msg .done)).timerActive = false := by
    simp [execStep, htc, handleMsg, hl1, hs1, firstSettle]
  obtain ⟨hset, hlf, htf⟩ := hstep
  have hrest := foldl_settled handlers window timer rest _ hlf htf (by rw [hset]; rfl)
  rw [hrest.1, hset, ho1, he1]

theorem foldl_error (handlers : JsMap InputHandler)
    (window : Option (String → Option String)) (timer : Option Nat)
    (pre rest : WTrace) (t : Nat) (d : String) (s : RunSt)
    (h1 : s.settled = none) (h2 : s.listener = true)
    (hq : ∀ e ∈ pre, quietEv e.2 = true ∧ ∀ tT, timer = some tT → e.1 < tT)
    (ht : ∀ tT, timer = some tT → t < tT) :
    ((pre ++ (t, .msg (.error d)) :: rest).foldl (execStep handlers window timer) s).settled =
      some (.resolved (s.out ++ outAcc pre) ((s.err ++ errAcc pre) ++ d) false) := by
  rw [List.foldl_append, List.foldl_cons]
  obtain ⟨⟨hs1, hl1, _⟩, ho1, he1, _⟩ := foldl_quiet handlers window timer pre s h1 h2 hq
  set s1 := pre.foldl (execStep handlers window timer) s with hs1def
  have htc : timerCheck timer t s1 = s1 := timerCheck_quiet timer t s1 ht
  have hstep : (execStep handlers window timer s1 (t, .msg (.error d))).settled
        = some (.resolved s1.out (s1.err ++ d) false) ∧
      (execStep handlers window timer s1 (t, .msg (.error d))).listener = false ∧
      (execStep handlers window timer s1 (t, .msg (.error d))).timerActive = false := by
    simp [execStep, htc, handleMsg, hl1, hs1, firstSettle]
  obtain ⟨hset, hlf, htf⟩ := hstep
  have hrest := foldl_settled handlers window timer rest _ hlf htf (by rw [hset]; rfl)
  rw [hrest.1, hset, ho1, he1]

theorem runExec_done (handlers : JsMap InputHandler)
    (window : Option (String → Option String)) (code : String) (timeout : Option Nat)
    (pre rest : WTrace) (t : Nat)
    (hq : ∀ e ∈ pre, quietEv e.2 = true ∧ ∀ tT, execTimer timeout = some tT → e.1 < tT)
    (ht : ∀ tT, execTimer timeout = some tT → t < tT) :
    (runExec handlers window code timeout (pre ++ (t, .msg .done) :: rest)).outcome =
      .resolved (outAcc pre) (errAcc pre) true := by
  have h := foldl_done handlers window (execTimer timeout) pre rest t
    { out := "", err := "", success := false, events := [], posted := [.codeMsg code],
      settled := none, listener := true, timerActive := (execTimer timeout).isSome }
    rfl rfl hq ht
  simp only [runExec]
  rw [h]
  simp

theorem runExec_error (handlers : JsMap InputHandler)
    (window : Option (String → Option String)) (code : String) (timeout : Option Nat)
    (pre rest : WTrace) (t : Nat) (d : String)
    (hq : ∀ e ∈ pre, quietEv e.2 = true ∧ ∀ tT, execTimer timeout = some tT → e.1 < tT)
    (ht : ∀ tT, execTimer timeout = some tT → t < tT) :
    (runExec handlers window code timeout (pre ++ (t, .msg (.error d)) :: rest)).outcome =
      .resolved (outAcc pre) (errAcc pre ++ d) false := by
  have h := foldl_error handlers window (execTimer timeout) pre rest t d
    { out := "", err := "", success := false, events := [], posted := [.codeMsg code],
      settled := none, listener := true, timerActive := (execTimer timeout).isSome }
    rfl rfl hq ht
  simp only [runExec]
  rw [h]
  simp

theorem runExec_quiet_timeout (handlers : JsMap InputHandler)
    (window : Option (String → Option String)) (code : String) (tT : Nat) (trace : WTrace)
    (htT : 0 < tT) (hq : ∀ e ∈ trace, quietEv e.2 = true ∧ e.1 < tT) :
    (runExec handlers window code (some tT) trace).outcome = .rejected "Execution timeout" := by
  have hTimer : execTimer (some tT) = some tT := by
    cases tT with
    | zero => exact absurd htT (by simp)
    | succ n => rfl
  obtain ⟨⟨hs1, _, _⟩, _⟩ := foldl_quiet handlers window (execTimer (some tT)) trace
    { out := "", err := "", success := false, events := [], posted := [.codeMsg code],
      settled := none, listener := true, timerActive := (execTimer (some tT)).isSome }
    rfl rfl
    (by
      intro e he
      refine ⟨(hq e he).1, ?_⟩
      intro tT2 h2
      rw [hTimer] at h2
      cases h2
      exact (hq e he).2)
  simp only [runExec]
  rw [hs1]
  simp [hTimer]

theorem mget_cons_eq {α : Type} (hd : String × α) (tl : JsMap α) (k : String)
    (h : (hd.1 == k) = true) : mget (hd :: tl) k = some hd.2 := by
  simp [mget, List.find?, h]

theorem mget_cons_ne {α : Type} (hd : String × α) (tl : JsMap α) (k : String)
    (h : (hd.1 == k) = false) : mget (hd :: tl) k = mget tl k := by
  simp [mget, List.find?, h]

theorem mget_map_set {α : Type} (m : JsMap α) (k : String) (v : α)
    (h : m.any (fun p => p.1 == k) = true) :
    mget (m.map (fun p => if p.1 == k then (k, v) else p)) k = some v := by
  induction m with
  | nil => simp at h
  | cons hd tl ih =>
    rw [List.map_cons]
    cases hhd : (hd.1 == k) with
    | true =>
      simp only [hhd, if_true]
      exact mget_cons_eq (k, v) _ k (by simp)
    | false =>
      simp only [hhd, Bool.false_eq_true, if_false]
      rw [mget_cons_ne hd _ k hhd]
      apply ih
      rw [List.any_cons] at h
      simpa [hhd] using h

theorem mget_append_self {α : Type} (m : JsMap α) (k : String) (v : α)
    (h : m.any (fun p => p.1 == k) = false) :
    mget (m ++ [(k, v)]) k = some v := by
  induction m with
  | nil =>
    rw [List.nil_append]
    exact mget_cons_eq (k, v) [] k (by simp)
  | cons hd tl ih =>
    rw [List.cons_append]
    cases hhd : (hd.1 == k) with
    | true =>
      rw [List.any_cons] at h
      simp [hhd] at h
    | false =>
      rw [mget_cons_ne hd _ k hhd]
      apply ih
      rw [List.any_cons] at h
      simpa [hhd] using h

theorem mget_mset_self {α : Type} (m : JsMap α) (k : String) (v : α) :
    mget (mset m k v) k = some v := by
  unfold mset
  cases hany : m.any (fun p => p.1 == k) with
  | true =>
    rw [if_pos rfl]
    exact mget_map_set m k v hany
  | false =>
    rw [if_neg (by simp)]
    exact mget_append_self m k v hany

theorem getOrCreateWorker_ready (st : RegistryState) (language : String) (hs : WTrace)
    (w : Nat) (hw : mget st.workers language = some w)
    (hr : mget st.workerReady language = some true) :
    getOrCreateWorker st language hs = (.ok w, st) := by
  simp [getOrCreateWorker, hw, hr]

theorem mhas_nil {α : Type} (k : String) : mhas ([] : JsMap α) k = false := rfl

theorem mhas_cons {α : Type} (a : String) (v : α) (m : JsMap α) (k : String) :
    mhas ((a, v) :: m) k = (a == k || mhas m k) := by
  cases h : a == k <;> simp [mhas, mget, List.find?, h]

/-- A facade state whose python session exists but is not ready, as after a
failed construction: used to exercise the replacement path. -/
def stNotReady : RegistryState :=
  { workers := [( "python", 3)], workerPaths := setupDefaultExecutors [],
    workerReady := [( "python", false)], inputHandlers := [], nextId := 7,
    terminatedIds := [] }

/-- A facade state with an input handler registered for javascript that
answers `"Alice"`, and no handler for python. -/
def aliceSt : RegistryState :=
  setInputHandler initialState "javascript" (fun _ => Except.ok "Alice")

/-- Claim C1: refuted by the code — during an execution in language
`javascript` with a handler registered for `javascript` that resolves to
`"Alice"`, an `input_request` is answered with the empty string, because
the message handler looks the input handler up under the hardcoded key
`"python"` and falls back to the default handler, which fails without a
`window`; execution still continues to a successful resolution.  The first
conjunct shows the registered language handler would have answered
`"Alice"`. -/
theorem inputRequest_wrong_handler_C1 :
    ((mget aliceSt.inputHandlers "javascript").getD (defaultInputHandler none)) "name?" =
      .ok "Alice" ∧
    (mget aliceSt.inputHandlers "python").isSome = false ∧
    (runExec aliceSt.inputHandlers none "greet()" none
        [(0, .msg (.inputRequest "name?")), (1, .msg .done)]).fin.posted =
      [.codeMsg "greet()", .inputResponse ""] ∧
    (runExec aliceSt.inputHandlers none "greet()" none
        [(0, .msg (.inputRequest "name?")), (1, .msg .done)]).outcome =
      .resolved "" "" true := by
  refine ⟨rfl, by decide, by decide, by decide⟩

/-- Claim C3: refuted by the code — on the handshake timeout path the
message listener is never deregistered (first conjunct: an empty trace
leaves the listener attached while the outcome is the timeout rejection),
and a session that failed its handshake is not left terminated: with a
`ready` message arriving at 31000 ms (after the 30000 ms bound) the
construction attempt rejects, yet the leaked listener marks the dead
session ready, it is never terminated, and the next `getOrCreateWorker`
returns it as-is instead of retrying (the id counter does not move). -/
theorem handshake_timeout_bug_C3 :
    ((runHandshake "python" []).listener = true ∧
     hsOutcome "python" (runHandshake "python" []) = .error (initTimeoutMsg "python")) ∧
    ((getOrCreateWorker initialState "python" [(31000, .msg .ready)]).1 =
       .error (initTimeoutMsg "python") ∧
     mget (getOrCreateWorker initialState "python"
        [(31000, .msg .ready)]).2.workerReady "python" = some true ∧
     (getOrCreateWorker initialState "python" [(31000, .msg .ready)]).2.terminatedIds = [] ∧
     (getOrCreateWorker
        (getOrCreateWorker initialState "python" [(31000, .msg .ready)]).2
        "python" []).1 = .ok 0 ∧
     (getOrCreateWorker
        (getOrCreateWorker initialState "python" [(31000, .msg .ready)]).2
        "python" []).2.nextId = 1) := by
  decide

/-- Counterexample to claim C2 as stated: the overall operation does not
reject on the timeout path — with a ready worker that emits nothing and
`options.timeout = 100`, `executeWithEvents` resolves with a failed
`ExecutionResult`; and a timeout supplied in the request itself is ignored
entirely (no timer is installed), leaving the operation pending rather
than rejecting after T. -/
theorem timeout_not_rejected_C2ce :
    (executeWithEvents readySt { code := "while(true);", language := "python", timeout := none }
        { timeout := some 100, inputHandler := none }
        { hsTrace := [], execTrace := [], window := none, elapsed := 7 }).outcome =
      .result { stdout := "", stderr := "Execution failed: Execution timeout",
                success := false, executionTime := some 7 } ∧
    (executeWithEvents readySt { code := "while(true);", language := "python", timeout := some 100 }
        { timeout := none, inputHandler := none }
        { hsTrace := [], execTrace := [], window := none, elapsed := 7 }).outcome =
      .pending := by
  decide

/-- Claim C2 (amended): with a ready worker, a positive `options.timeout`
T, and a worker that emits no terminal event and no fault before T, the
inner worker-execution promise rejects with `Execution timeout` (it does
not stay pending), and `executeWithEvents` surfaces this as a resolved
result with success = false and stderr `Execution failed: Execution
timeout`, with an `error` event delivered after the forwarded events; no
partial output is included in the result. -/
theorem execution_timeout_C2 (st : RegistryState) (req : ExecutionRequest)
    (hOpt : Option InputHandler) (env : WEnv) (tT w : Nat)
    (htT : 0 < tT)
    (hquiet : ∀ e ∈ env.execTrace, quietEv e.2 = true ∧ e.1 < tT)
    (hw : mget st.workers (lowerCase req.language) = some w)
    (hready : mget st.workerReady (lowerCase req.language) = some true) :
    (runExec (installOpt st (lowerCase req.language) hOpt).inputHandlers env.window req.code
        (some tT) env.execTrace).outcome = .rejected "Execution timeout" ∧
    (executeWithEvents st req { timeout := some tT, inputHandler := hOpt } env).outcome =
      .result { stdout := "", stderr := "Execution failed: Execution timeout",
                success := false, executionTime := some env.elapsed } ∧
    (executeWithEvents st req { timeout := some tT, inputHandler := hOpt } env).events =
      (runExec (installOpt st (lowerCase req.language) hOpt).inputHandlers env.window req.code
        (some tT) env.execTrace).fin.events ++ [.error "Execution timeout"] := by
  have hrej := runExec_quiet_timeout
    (installOpt st (lowerCase req.language) hOpt).inputHandlers env.window req.code tT
    env.execTrace htT hquiet
  have hget := getOrCreateWorker_ready st (lowerCase req.language) env.hsTrace w hw hready
  refine ⟨hrej, ?_, ?_⟩
  · simp [executeWithEvents, hget, hrej]
  · simp [executeWithEvents, hget, hrej]

/-- Witness for C2's amended theorem at a concrete ready state, a worker
that emits only a stdout event at 10 ms, and a 50 ms timeout. -/
theorem execution_timeout_C2_witness :
    (runExec (installOpt readySt (lowerCase "python") none).inputHandlers none "spin()"
        (some 50) [(10, .msg (.stdout "hi"))]).outcome = .rejected "Execution timeout" ∧
    (executeWithEvents readySt { code := "spin()", language := "python", timeout := none }
        { timeout := some 50, inputHandler := none }
        { hsTrace := [], execTrace := [(10, .msg (.stdout "hi"))], window := none,
          elapsed := 12 }).outcome =
      .result { stdout := "", stderr := "Execution failed: Execution timeout",
                success := false, executionTime := some 12 } ∧
    (executeWithEvents readySt { code := "spin()", language := "python", timeout := none }
        { timeout := some 50, inputHandler := none }
        { hsTrace := [], execTrace := [(10, .msg (.stdout "hi"))], window := none,
          elapsed := 12 }).events =
      (runExec (installOpt readySt (lowerCase "python") none).inputHandlers none "spin()"
        (some 50) [(10, .msg (.stdout "hi"))]).fin.events ++ [.error "Execution timeout"] := by
  exact execution_timeout_C2 readySt { code := "spin()", language := "python", timeout := none }
    none
    { hsTrace := [], execTrace := [(10, .msg (.stdout "hi"))], window := none, elapsed := 12 }
    50 0 (by decide)
    (by intro e he; rw [List.mem_singleton] at he; subst he; exact ⟨rfl, by decide⟩)
    (by decide) (by decide)

/-- Claim C4: a Registry failure while obtaining a worker is propagated by
`executeWithEvents` as a single `error` event carrying the failure message
plus a resolved result with success = false and the failure message copied
into stderr (prefixed by `Execution failed: `); and when neither a session
nor an entry-point registration exists for the language, the Registry
failure is exactly `No executor found for language: X`. -/
theorem registry_failure_propagation_C4 (st : RegistryState) (req : ExecutionRequest)
    (opts : ExecOptions) (env : WEnv) :
    (∀ m st1, getOrCreateWorker st (lowerCase req.language) env.hsTrace = (.error m, st1) →
       (executeWithEvents st req opts env).events = [.error m] ∧
       (executeWithEvents st req opts env).outcome =
         .result { stdout := "", stderr := "Execution failed: " ++ m, success := false,
                   executionTime := some env.elapsed }) ∧
    (mget st.workers (lowerCase req.language) = none →
     mget st.workerPaths (lowerCase req.language) = none →
       getOrCreateWorker st (lowerCase req.language) env.hsTrace =
         (.error ( "No executor found for language: " ++ lowerCase req.language), st)) := by
  constructor
  · intro m st1 hget
    constructor
    · simp [executeWithEvents, hget]
    · simp [executeWithEvents, hget]
  · intro hw hp
    simp [getOrCreateWorker, mkWorker, hw, hp]

/-- Witness for C4 at a fresh facade and the unregistered language `Ruby`. -/
theorem registry_failure_propagation_C4_witness :
    (executeWithEvents initialState { code := "x", language := "Ruby", timeout := none }
        { timeout := none, inputHandler := none }
        { hsTrace := [], execTrace := [], window := none, elapsed := 3 }).events =
      [.error "No executor found for language: ruby"] ∧
    (executeWithEvents initialState { code := "x", language := "Ruby", timeout := none }
        { timeout := none, inputHandler := none }
        { hsTrace := [], execTrace := [], window := none, elapsed := 3 }).outcome =
      .result { stdout := "", stderr := "Execution failed: No executor found for language: ruby",
                success := false, executionTime := some 3 } := by
  have h := registry_failure_propagation_C4 initialState
    { code := "x", language := "Ruby", timeout := none }
    { timeout := none, inputHandler := none }
    { hsTrace := [], execTrace := [], window := none, elapsed := 3 }
  exact h.1 _ _ (h.2 (by decide) (by decide))

/-- Claim C5: a worker `error(data)` event (after any run of non-terminal
events) appends the payload to the stderr accumulator and resolves the
execution normally with the accumulated stdout/stderr and success = false
— a resolution, not an exception; in particular `error("boom")` yields a
resolved failure with `"boom"` in stderr. -/
theorem error_event_failed_result_C5 :
    (∀ (handlers : JsMap InputHandler) (window : Option (String → Option String))
       (code : String) (timeout : Option Nat) (pre rest : WTrace) (t : Nat) (d : String),
       (∀ e ∈ pre, quietEv e.2 = true ∧ ∀ tT, execTimer timeout = some tT → e.1 < tT) →
       (∀ tT, execTimer timeout = some tT → t < tT) →
       (runExec handlers window code timeout (pre ++ (t, .msg (.error d)) :: rest)).outcome =
         .resolved (outAcc pre) (errAcc pre ++ d) false) ∧
    (runExec [] none "explode()" none [(0, .msg (.error "boom"))]).outcome =
      .resolved "" "boom" false := by
  constructor
  · intro handlers window code timeout pre rest t d hq ht
    exact runExec_error handlers window code timeout pre rest t d hq ht
  · decide

/-- Witness for C5 with one stdout event before the error event. -/
theorem error_event_failed_result_C5_witness :
    (runExec [] none "w" none
        ([(1, .msg (.stdout "o"))] ++ (2, .msg (.error "E")) :: [])).outcome =
      .resolved (outAcc [(1, .msg (.stdout "o"))]) (errAcc [(1, .msg (.stdout "o"))] ++ "E")
        false :=
  error_event_failed_result_C5.1 [] none "w" none [(1, .msg (.stdout "o"))] [] 2 "E"
    (by intro e he; rw [List.mem_singleton] at he; subst he
        exact ⟨rfl, by intro tT h; simp [execTimer] at h⟩)
    (by intro tT h; simp [execTimer] at h)

/-- Claim C6: stdout and stderr events are appended to their accumulators
in emission order, and a `done` event sets success and resolves with the
accumulated values; in particular `stdout("a")`, `stdout("b")`, `done`
yields `{stdout := "ab", stderr := "", success := true}`. -/
theorem stdout_then_done_C6 :
    (∀ (handlers : JsMap InputHandler) (window : Option (String → Option String))
       (code : String) (timeout : Option Nat) (pre rest : WTrace) (t : Nat),
       (∀ e ∈ pre, quietEv e.2 = true ∧ ∀ tT, execTimer timeout = some tT → e.1 < tT) →
       (∀ tT, execTimer timeout = some tT → t < tT) →
       (runExec handlers window code timeout (pre ++ (t, .msg .done) :: rest)).outcome =
         .resolved (outAcc pre) (errAcc pre) true) ∧
    (runExec [] none "print(ab)" none
        [(0, .msg (.stdout "a")), (1, .msg (.stdout "b")), (2, .msg .done)]).outcome =
      .resolved "ab" "" true := by
  constructor
  · intro handlers window code timeout pre rest t hq ht
    exact runExec_done handlers window code timeout pre rest t hq ht
  · decide

/-- Witness for C6 with one stdout event before `done`. -/
theorem stdout_then_done_C6_witness :
    (runExec [] none "w" none ([(0, .msg (.stdout "x"))] ++ (5, .msg .done) :: [])).outcome =
      .resolved (outAcc [(0, .msg (.stdout "x"))]) (errAcc [(0, .msg (.stdout "x"))]) true :=
  stdout_then_done_C6.1 [] none "w" none [(0, .msg (.stdout "x"))] [] 5
    (by intro e he; rw [List.mem_singleton] at he; subst he
        exact ⟨rfl, by intro tT h; simp [execTimer] at h⟩)
    (by intro tT h; simp [execTimer] at h)

/-- Claim C7: with a session present for the language — if it is marked
ready, `getOrCreateWorker` returns the same worker handle and leaves the
state untouched, so a second call returns the same handle again (reuse);
if it is not marked ready and an entry-point is registered, the existing
worker is terminated and a new one is constructed under a fresh id
(replacement). -/
theorem getOrCreateWorker_reuse_replace_C7 :
    ∀ (st : RegistryState) (language : String) (hs hs2 : WTrace) (w : Nat),
      mget st.workers language = some w →
      ((mget st.workerReady language = some true →
          getOrCreateWorker st language hs = (.ok w, st) ∧
          getOrCreateWorker (getOrCreateWorker st language hs).2 language hs2 =
            (.ok w, st)) ∧
       ((mget st.workerReady language).getD false = false →
        ∀ p, mget st.workerPaths language = some p →
          (getOrCreateWorker st language hs).2.terminatedIds = st.terminatedIds ++ [w] ∧
          mget (getOrCreateWorker st language hs).2.workers language = some st.nextId ∧
          (getOrCreateWorker st language hs).2.nextId = st.nextId + 1)) := by
  intro st language hs hs2 w hw
  constructor
  · intro hr
    have h1 := getOrCreateWorker_ready st language hs w hw hr
    refine ⟨h1, ?_⟩
    rw [h1]
    exact getOrCreateWorker_ready st language hs2 w hw hr
  · intro hnr p hp
    have hbody : getOrCreateWorker st language hs =
        mkWorker { st with terminatedIds := st.terminatedIds ++ [w] } language hs := by
      simp [getOrCreateWorker, hw, hnr]
    have hp2 : mget ({ st with terminatedIds := st.terminatedIds ++ [w] } :
        RegistryState).workerPaths language = some p := hp
    rw [hbody]
    by_cases hready : (runHandshake language hs).readySet = true
    · cases houtcome : hsOutcome language (runHandshake language hs) with
      | ok u => simp [mkWorker, hp2, hready, houtcome, mget_mset_self]
      | error m2 => simp [mkWorker, hp2, hready, houtcome, mget_mset_self]
    · cases houtcome : hsOutcome language (runHandshake language hs) with
      | ok u => simp [mkWorker, hp2, hready, houtcome, mget_mset_self]
      | error m2 => simp [mkWorker, hp2, hready, houtcome, mget_mset_self]

/-- Witness for C7: reuse on a ready python session, and replacement on a
not-ready python session (worker 3 is terminated, the fresh id 7 is
installed, the counter moves to 8). -/
theorem getOrCreateWorker_reuse_replace_C7_witness :
    (getOrCreateWorker readySt "python" [] = (.ok 0, readySt) ∧
     getOrCreateWorker (getOrCreateWorker readySt "python" []).2 "python" [] =
       (.ok 0, readySt)) ∧
    ((getOrCreateWorker stNotReady "python" [(0, .msg .ready)]).2.terminatedIds = [3] ∧
     mget (getOrCreateWorker stNotReady "python" [(0, .msg .ready)]).2.workers "python" =
       some 7 ∧
     (getOrCreateWorker stNotReady "python" [(0, .msg .ready)]).2.nextId = 8) := by
  constructor
  · exact (getOrCreateWorker_reuse_replace_C7 readySt "python" [] [] 0 (by decide)).1
      (by decide)
  · have h := (getOrCreateWorker_reuse_replace_C7 stNotReady "python" [(0, .msg .ready)]
      [] 3 (by decide)).2 (by decide) "./packages/py-executor/dist/index.js" (by decide)
    exact ⟨h.1, h.2.1, h.2.2⟩

/-- Claim C8: `terminate` releases every live session's executor (their
handles are appended to the termination log), clears the session map, the
readiness flags and the input handlers, leaves the entry-point
registrations untouched (so `getSupportedLanguages` is unchanged), and a
second `terminate` is a no-op. -/
theorem terminate_C8 (st : RegistryState) :
    (terminate st).workers = [] ∧ (terminate st).workerReady = [] ∧
    (terminate st).inputHandlers = [] ∧
    (terminate st).workerPaths = st.workerPaths ∧
    getSupportedLanguages (terminate st) = getSupportedLanguages st ∧
    (terminate st).terminatedIds = st.terminatedIds ++ st.workers.map (fun p => p.2) ∧
    terminate (terminate st) = terminate st := by
  refine ⟨rfl, rfl, rfl, rfl, rfl, rfl, ?_⟩
  simp [terminate]

/-- Claim C9: `executeWithEvents` converts every internal failure into a
resolution — a Registry failure while obtaining a worker, or a rejection
of the inner worker-execution promise (transport fault or execution
timeout), each yield a resolved result with success = false and stderr
`Execution failed: ` followed by the failure message, with an `error`
event carrying the message delivered to the caller's handler after any
already-forwarded events. -/
theorem executeWithEvents_absorbs_failures_C9 (st : RegistryState) (req : ExecutionRequest)
    (opts : ExecOptions) (env : WEnv) :
    (∀ m st1, getOrCreateWorker st (lowerCase req.language) env.hsTrace = (.error m, st1) →
       executeWithEvents st req opts env =
         { outcome := .result { stdout := "", stderr := "Execution failed: " ++ m,
                                success := false, executionTime := some env.elapsed },
           events := [.error m], posted := [], state := st1 }) ∧
    (∀ w st1 m, getOrCreateWorker st (lowerCase req.language) env.hsTrace = (.ok w, st1) →
       (runExec (installOpt st1 (lowerCase req.language) opts.inputHandler).inputHandlers
           env.window req.code opts.timeout env.execTrace).outcome = .rejected m →
       (executeWithEvents st req opts env).outcome =
         .result { stdout := "", stderr := "Execution failed: " ++ m, success := false,
                   executionTime := some env.elapsed } ∧
       (executeWithEvents st req opts env).events =
         (runExec (installOpt st1 (lowerCase req.language) opts.inputHandler).inputHandlers
             env.window req.code opts.timeout env.execTrace).fin.events ++ [.error m]) := by
  constructor
  · intro m st1 hget
    simp [executeWithEvents, hget]
  · intro w st1 m hget hrej
    constructor
    · simp [executeWithEvents, hget, hrej]
    · simp [executeWithEvents, hget, hrej]

/-- Witness for C9: the missing-executor branch at language `Haskell` on a
fresh facade, and the worker-fault branch on a ready python session whose
worker emits a stdout event and then a transport fault. -/
theorem executeWithEvents_absorbs_failures_C9_witness :
    executeWithEvents initialState { code := "x", language := "Haskell", timeout := none }
        { timeout := none, inputHandler := none }
        { hsTrace := [], execTrace := [], window := none, elapsed := 2 } =
      { outcome := .result { stdout := "",
                             stderr := "Execution failed: No executor found for language: haskell",
                             success := false, executionTime := some 2 },
        events := [.error "No executor found for language: haskell"], posted := [],
        state := initialState } ∧
    (executeWithEvents readySt { code := "y", language := "python", timeout := none }
        { timeout := none, inputHandler := none }
        { hsTrace := [], execTrace := [(4, .msg (.stdout "hi")), (6, .fault "crash")],
          window := none, elapsed := 9 }).outcome =
      .result { stdout := "", stderr := "Execution failed: Worker error during execution: crash",
                success := false, executionTime := some 9 } ∧
    (executeWithEvents readySt { code := "y", language := "python", timeout := none }
        { timeout := none, inputHandler := none }
        { hsTrace := [], execTrace := [(4, .msg (.stdout "hi")), (6, .fault "crash")],
          window := none, elapsed := 9 }).events =
      [.stdout "hi", .error "Worker error during execution: crash"] := by
  have hget1 : getOrCreateWorker initialState (lowerCase "Haskell") [] =
      (.error "No executor found for language: haskell", initialState) := rfl
  have h1 := (executeWithEvents_absorbs_failures_C9 initialState
    { code := "x", language := "Haskell", timeout := none }
    { timeout := none, inputHandler := none }
    { hsTrace := [], execTrace := [], window := none, elapsed := 2 }).1
    "No executor found for language: haskell" initialState hget1
  have hget2 : getOrCreateWorker readySt (lowerCase "python") [] = (.ok 0, readySt) := rfl
  have hrej2 : (runExec (installOpt readySt (lowerCase "python") none).inputHandlers
      none "y" none [(4, .msg (.stdout "hi")), (6, .fault "crash")]).outcome =
      .rejected "Worker error during execution: crash" := by decide
  have h2 := (executeWithEvents_absorbs_failures_C9 readySt
    { code := "y", language := "python", timeout := none }
    { timeout := none, inputHandler := none }
    { hsTrace := [], execTrace := [(4, .msg (.stdout "hi")), (6, .fault "crash")],
      window := none, elapsed := 9 }).2
    0 readySt "Worker error during execution: crash" hget2 hrej2
  refine ⟨h1, h2.1, ?_⟩
  rw [h2.2]
  decide

/-- Claim C10: a freshly constructed core already has entry-point
registrations for exactly python, javascript, typescript, cpp and java —
`getSupportedLanguages` returns exactly this set (in registration order),
and `isLanguageSupported` holds precisely when the lower-cased query is
one of the five (hence case-insensitively for each of them). -/
theorem default_languages_C10 :
    getSupportedLanguages initialState =
      [ "python", "javascript", "typescript", "cpp", "java" ] ∧
    ∀ language : String,
      isLanguageSupported initialState language =
        ( "python" == lowerCase language || ( "javascript" == lowerCase language ||
          ( "typescript" == lowerCase language || ( "cpp" == lowerCase language ||
            "java" == lowerCase language)))) := by
  refine ⟨by decide, ?_⟩
  intro language
  show mhas initialState.workerPaths (lowerCase language) = _
  have hpaths : initialState.workerPaths =
      [( "python", "./packages/py-executor/dist/index.js"),
       ( "javascript", "./packages/js-executor/dist/index.js"),
       ( "typescript", "./packages/ts-executor/dist/index.js"),
       ( "cpp", "./packages/cpp-executor/dist/index.js"),
       ( "java", "./packages/java-executor/dist/index.js")] := by decide
  rw [hpaths]
  simp only [mhas_cons, mhas_nil, Bool.or_false]

end WebRunnr
